import Mathlib

/-!
Verification of the picalc pi-estimation program (src/src/main.rs).

The program estimates pi by counting integer lattice points inside a
quarter-disk of radius N-1 on an N x N grid.  The 8x8 block partition of the
grid is hard-coded: 41 blocks are entirely inside the disk ("full"), 8 are
entirely outside, and the remaining 15 straddle the boundary; only 8
representative boundary blocks are actually computed by the GPU kernel, the
rest reuse those counts via the diagonal symmetry of the disk.

Machine arithmetic note: the source uses u32/u64/usize counters.  Counts are
embedded as Nat; the spec's stated operating domain keeps every intermediate
below 2^32 ("no overflow risk below 2^32 points per block for realistic N"),
where the Nat embedding and the machine arithmetic agree.
-/

namespace Picalc

/-- Modelled from the spec: the Circle Predicate lives in `compute.wgsl`,
which is not under src/ (only the dispatching host code in main.rs is).
Spec 4.1: "given integer coordinates (x, y) and integer radius R, returns
true iff x^2 + y^2 <= R^2", with exact integer arithmetic. -/
def inCircle (x y R : Nat) : Bool :=
  x * x + y * y ≤ R * R

/-- Sum of the Circle Predicate over the C x C region of the grid at
offset (ox, oy), against radius R.  Modelled from the spec: each
dispatched invocation of the Boundary Counting Kernel (`compute.wgsl`,
not under src/) evaluates the Circle Predicate at its point of the block
and writes 1 or 0 into the result buffer, which `Square::get_total`
(main.rs lines 105-111) sums.  With C the per-axis covered extent of the
dispatch this is the buffer total (untouched entries of the
zero-initialized buffer add 0); with C = B it is the full per-block
count the spec's partition plan reasons about. -/
def squareTotal (ox oy C R : Nat) : Nat :=
  ∑ ly ∈ Finset.range C, ∑ lx ∈ Finset.range C,
    (if inCircle (ox + lx) (oy + ly) R then 1 else 0)

/-- Workgroups per axis of one kernel dispatch, from `Square::compute`
(main.rs lines 75-82): `self.size / (self.squares_per * 16)` with
`squares_per = 8`.  Truncating: zero workgroups whenever size < 128. -/
def workgroupsPerAxis (size : Nat) : Nat :=
  size / (8 * 16)

/-- The eight representative block coordinates from main.rs lines 208-217:
`[[7,0],[7,1],[7,2],[7,3],[6,3],[6,4],[6,5],[5,5]]`, each scaled by
`s = size / 8` to a pixel offset. -/
def squareOffsets : List (Nat × Nat) :=
  [(7, 0), (7, 1), (7, 2), (7, 3), (6, 3), (6, 4), (6, 5), (5, 5)]

/-- The kernel dispatches the run performs: one `Square::compute` per entry
of the `squares` array (main.rs lines 227-229), at offset
`(x[0] * s, x[1] * s)` with `s = size / 8`. -/
def kernelDispatches (size : Nat) : List (Nat × Nat) :=
  squareOffsets.map fun p => (p.1 * (size / 8), p.2 * (size / 8))

/-- The aggregation of main.rs lines 243-256, laid out verbatim: `full`
is `(size/8) * (size/8)` and `sq i` is the summed result buffer of the
i-th representative square.  Each kernel evaluates only the points its
dispatch covers: `Square::compute` issues `size / (8 * 16)` workgroups
per axis and the shader covers a 16 x 16 tile per workgroup (the tile
size the `(size/8) x (size/8)` buffer dimensions imply), so the
evaluated region per axis is `16 * (size / (8 * 16))` - all B points
only when 128 divides size, and zero points when size < 128; wgpu
result buffers are zero-initialized, so unevaluated entries add 0. -/
def latticeTotal (size : Nat) : Nat :=
  let s := size / 8
  let c := 16 * (size / (8 * 16))
  let full := s * s
  let sq0 := squareTotal (7 * s) (0 * s) c (size - 1)
  let sq1 := squareTotal (7 * s) (1 * s) c (size - 1)
  let sq2 := squareTotal (7 * s) (2 * s) c (size - 1)
  let sq3 := squareTotal (7 * s) (3 * s) c (size - 1)
  let sq4 := squareTotal (6 * s) (3 * s) c (size - 1)
  let sq5 := squareTotal (6 * s) (4 * s) c (size - 1)
  let sq6 := squareTotal (6 * s) (5 * s) c (size - 1)
  let sq7 := squareTotal (5 * s) (5 * s) c (size - 1)
  full + full + full + full + full + full + full + sq0 +
  full + full + full + full + full + full + full + sq1 +
  full + full + full + full + full + full + full + sq2 +
  full + full + full + full + full + full + sq4   + sq3 +
  full + full + full + full + full + full + sq5   + 0 +
  full + full + full + full + full + sq7  + sq6   + 0 +
  full + full + full + sq4  + sq5  + sq6  + 0     + 0 +
  sq0  + sq1  + sq2  + sq3  + 0    + 0    + 0     + 0

/-- Brute-force count of lattice points (x, y) with 0 <= x, y < N and
x^2 + y^2 <= (N-1)^2: the Circle Predicate evaluated independently at
all N^2 points. -/
def bruteCount (N : Nat) : Nat :=
  ∑ y ∈ Finset.range N, ∑ x ∈ Finset.range N,
    (if inCircle x y (N - 1) then 1 else 0)

/-- The numerator/denominator pair printed by main.rs line 258:
`(total as u64) * 4` over `(size - 1) * (size - 1)`. -/
def piFraction (size : Nat) : Nat × Nat :=
  (latticeTotal size * 4, (size - 1) * (size - 1))

/-- The two lines main.rs writes to standard output on a successful run:
`println!("GPU Done!")` (line 239) and
`println!("pi = {}/{}", (total as u64) * 4, (size - 1) * (size - 1))`
(line 258).  Faithful for size >= 1: at size = 0 the source's usize
subtraction `size - 1` underflows (panic in a debug build, wraparound in
release), unlike the truncated Nat subtraction here, so the model is
only ever used at positive sizes. -/
def runOutput (size : Nat) : List String :=
  ["GPU Done!",
   "pi = " ++ toString (latticeTotal size * 4) ++ "/" ++
     toString ((size - 1) * (size - 1))]

/-- Rust `str::parse::<usize>` on the argument, over the argument's
characters: an optional leading `+`, then one or more ASCII digits, the
value below 2^64 (usize is 64-bit); anything else is a parse error. -/
def parseUsize (s : List Char) : Option Nat :=
  let t := match s with
    | '+' :: r => r
    | _ => s
  if t ≠ [] ∧ t.all Char.isDigit then
    let v := t.foldl (fun a c => a * 10 + (c.toNat - 48)) 0
    if v < 2 ^ 64 then some v else none
  else none

/-- main.rs lines 132-135: the first CLI argument is parsed with
`x.parse::<usize>().expect("Bad Arg Format")`; a missing argument
defaults to 1024. -/
def parseArg (arg : Option (List Char)) : Except String Nat :=
  match arg with
  | none => Except.ok 1024
  | some s =>
    match parseUsize s with
    | some n => Except.ok n
    | none => Except.error "Bad Arg Format"

/-- The observable run: parse the argument first (main.rs line 132); only
on success does any backend work happen - the kernel dispatches and the
two output lines.  A parse failure is the `expect` panic, before the
wgpu instance/adapter/device are ever created. -/
def runProgram (arg : Option (List Char)) :
    Except String (List (Nat × Nat) × List String) :=
  match parseArg arg with
  | Except.error e => Except.error e
  | Except.ok size => Except.ok (kernelDispatches size, runOutput size)

/-- Full per-block count of block (i, j), covering all its points
[i*B, (i+1)*B) x [j*B, (j+1)*B): the quantity the spec's partition plan
assigns to a block, and what the program computes for a representative
block exactly when the dispatch covers the whole block. -/
def blockCount (i j B R : Nat) : Nat :=
  squareTotal (i * B) (j * B) B R

/-- A cell of the spec's 8x8 classification table (spec 4.3). -/
inductive Cell where
  | full : Cell
  | empty : Cell
  | boundary : Nat → Cell
deriving DecidableEq, Repr

/-- The spec's verbatim 8x8 classification table (spec 4.3), row = by,
column = bx: `F` = full, `0` = empty, `Bi` = boundary index i. -/
def weightTable : List (List Cell) :=
  [[.full, .full, .full, .full, .full, .full, .full, .boundary 0],
   [.full, .full, .full, .full, .full, .full, .full, .boundary 1],
   [.full, .full, .full, .full, .full, .full, .full, .boundary 2],
   [.full, .full, .full, .full, .full, .full, .boundary 4, .boundary 3],
   [.full, .full, .full, .full, .full, .full, .boundary 5, .empty],
   [.full, .full, .full, .full, .full, .boundary 7, .boundary 6, .empty],
   [.full, .full, .full, .boundary 4, .boundary 5, .boundary 6, .empty, .empty],
   [.boundary 0, .boundary 1, .boundary 2, .boundary 3, .empty, .empty,
    .empty, .empty]]

/-- Classification of block (i, j) = (bx, by) per the spec table. -/
def classify (i j : Nat) : Cell :=
  (weightTable.getD j []).getD i Cell.empty

/-- The representative block coordinates the spec lists for boundary
indices 0..7: (7,0),(7,1),(7,2),(7,3),(6,3),(6,4),(6,5),(5,5). -/
def specRep : Nat → Nat × Nat
  | 0 => (7, 0)
  | 1 => (7, 1)
  | 2 => (7, 2)
  | 3 => (7, 3)
  | 4 => (6, 3)
  | 5 => (6, 4)
  | 6 => (6, 5)
  | _ => (5, 5)

/-- Contribution of one table cell per the spec's Aggregator (spec 4.4):
a full cell contributes B^2, an empty cell 0, and a boundary cell of
index k the per-point count of representative block `specRep k`. -/
def cellContribution (B R : Nat) : Cell → Nat
  | Cell.full => B * B
  | Cell.empty => 0
  | Cell.boundary k => blockCount (specRep k).1 (specRep k).2 B R

/-- The spec-side Lattice Total: the fold of `cellContribution` over all
64 cells of the verbatim table, row by row. -/
def specTotal (N : Nat) : Nat :=
  (weightTable.map fun row => (row.map (cellContribution (N / 8) (N - 1))).sum).sum

/-- Number of cells of the table marked full. -/
def fullCellCount : Nat :=
  (weightTable.map fun row => (row.filter fun c => c = Cell.full).length).sum

/-- Structurally recursive integer square root with explicit fuel:
`isqrtFuel f n` is the integer square root of n whenever n < 4^f,
via the recurrence isqrt n = 2 * isqrt (n / 4) possibly plus one. -/
def isqrtFuel : Nat → Nat → Nat
  | 0, _ => 0
  | f + 1, n =>
    let r := 2 * isqrtFuel f (n / 4)
    if (r + 1) * (r + 1) ≤ n then r + 1 else r

/-- Row-count form of the kernel total, used only to evaluate concrete
instances quickly: in the row at height oy + ly, the points ox + lx
inside the disk are exactly those with ox + lx <= sqrt (R^2 - y^2),
so the row contributes min B (sqrt (R^2 - y^2) + 1 - ox).  Proved equal
to `squareTotal` below for sufficient fuel. -/
def fastSquareTotal (f ox oy B R : Nat) : Nat :=
  ∑ ly ∈ Finset.range B,
    (if (oy + ly) * (oy + ly) ≤ R * R then
      min B (isqrtFuel f (R * R - (oy + ly) * (oy + ly)) + 1 - ox) else 0)

/-! ### Geometry of the block classification

A block is "full" when even its outer corner is inside the disk, and all
41 full cells of the table satisfy the single numeric condition
`(i+1)^2 + (j+1)^2 <= 64`; a block is "empty" when already its inner
corner is outside, and all 8 empty cells satisfy `65 <= i^2 + j^2`.
The next lemmas prove that these conditions force every one of the B^2
points of the block inside (resp. outside) the disk of radius 8B-1,
for every block side length B. -/

/-- Numeric bridge, checked by enumeration: for block-corner factors
a, b in [1, 8] with a^2 + b^2 <= 64, the two coefficient inequalities
used by `corner_le` hold. -/
lemma bridge_fact : ∀ a : Fin 9, ∀ b : Fin 9, 1 ≤ a.val → 1 ≤ b.val →
    a.val * a.val + b.val * b.val ≤ 64 →
    a.val * a.val + b.val * b.val ≤ 47 + 2 * (a.val + b.val) ∧
      a.val * a.val + b.val * b.val ≤ 56 + (a.val + b.val) := by
  decide

/-- Core inequality for full blocks, over the integers: any point (x, y)
dominated by the outer corner (a*B - 1, b*B - 1) of a block whose factors
satisfy the three numeric conditions lies inside the disk of radius
8*B - 1. -/
lemma corner_le (a b B x y : ℤ) (hB : 1 ≤ B) (hx0 : 0 ≤ x) (hy0 : 0 ≤ y)
    (hx : x < a * B) (hy : y < b * B)
    (h1 : a * a + b * b ≤ 47 + 2 * (a + b))
    (h2 : a * a + b * b ≤ 56 + (a + b))
    (h3 : a * a + b * b ≤ 64) :
    x * x + y * y ≤ (8 * B - 1) * (8 * B - 1) := by
  have hx1 : x ≤ a * B - 1 := by omega
  have hy1 : y ≤ b * B - 1 := by omega
  have t1 : 0 ≤ (a * B - 1 - x) * (a * B - 1 + x) :=
    mul_nonneg (by linarith) (by linarith)
  have t2 : 0 ≤ (b * B - 1 - y) * (b * B - 1 + y) :=
    mul_nonneg (by linarith) (by linarith)
  have t3 : 0 ≤ (B - 1) * (112 + 2 * (a + b) - 2 * (a * a + b * b)) :=
    mul_nonneg (by linarith) (by linarith)
  have t4 : 0 ≤ (B - 1) * (B - 1) * (64 - (a * a + b * b)) :=
    mul_nonneg (mul_nonneg (by linarith) (by linarith)) (by linarith)
  have key : (8 * B - 1) * (8 * B - 1) - x * x - y * y =
      (a * B - 1 - x) * (a * B - 1 + x) + (b * B - 1 - y) * (b * B - 1 + y) +
      (47 + 2 * (a + b) - (a * a + b * b)) +
      (B - 1) * (B - 1) * (64 - (a * a + b * b)) +
      (B - 1) * (112 + 2 * (a + b) - 2 * (a * a + b * b)) := by
    ring
  linarith

/-- Core inequality for empty blocks, over the integers: any point (x, y)
dominating the inner corner (i*B, j*B) of a block with 65 <= i^2 + j^2
lies strictly outside the disk of radius 8*B - 1. -/
lemma corner_gt (i j B x y : ℤ) (hB : 1 ≤ B) (hi0 : 0 ≤ i) (hj0 : 0 ≤ j)
    (h65 : 65 ≤ i * i + j * j) (hx : i * B ≤ x) (hy : j * B ≤ y) :
    (8 * B - 1) * (8 * B - 1) < x * x + y * y := by
  have hB0 : (0 : ℤ) ≤ B := by linarith
  have hx0 : 0 ≤ i * B := mul_nonneg hi0 hB0
  have hy0 : 0 ≤ j * B := mul_nonneg hj0 hB0
  have hx2 : i * B * (i * B) ≤ x * x :=
    mul_le_mul hx hx hx0 (le_trans hx0 hx)
  have hy2 : j * B * (j * B) ≤ y * y :=
    mul_le_mul hy hy hy0 (le_trans hy0 hy)
  have h3 : 65 * (B * B) ≤ (i * i + j * j) * (B * B) :=
    mul_le_mul_of_nonneg_right h65 (mul_nonneg hB0 hB0)
  have hBB : 1 * 1 ≤ B * B := mul_le_mul hB hB (by norm_num) hB0
  have e1 : i * B * (i * B) + j * B * (j * B) = (i * i + j * j) * (B * B) := by
    ring
  have e2 : (8 * B - 1) * (8 * B - 1) = 64 * (B * B) - 16 * B + 1 := by
    ring
  linarith

/-- Every point of a block whose cell satisfies the full-cell condition
evaluates the Circle Predicate to true, for radius 8*B - 1. -/
lemma point_in_full (i j B lx ly : Nat)
    (h64 : (i + 1) * (i + 1) + (j + 1) * (j + 1) ≤ 64)
    (hlx : lx < B) (hly : ly < B) :
    inCircle (i * B + lx) (j * B + ly) (8 * B - 1) = true := by
  have hB : 1 ≤ B := by omega
  have hi8 : i + 1 < 9 := by nlinarith
  have hj8 : j + 1 < 9 := by nlinarith
  obtain ⟨h1, h2⟩ := bridge_fact ⟨i + 1, hi8⟩ ⟨j + 1, hj8⟩
    (Nat.succ_le_succ (Nat.zero_le i)) (Nat.succ_le_succ (Nat.zero_le j)) h64
  have h8B : 1 ≤ 8 * B := by omega
  simp only [inCircle, decide_eq_true_eq]
  zify [h8B]
  have hx : ((i : ℤ) * B + lx) < ((i : ℤ) + 1) * B := by
    have : (lx : ℤ) < B := by exact_mod_cast hlx
    nlinarith
  have hy : ((j : ℤ) * B + ly) < ((j : ℤ) + 1) * B := by
    have : (ly : ℤ) < B := by exact_mod_cast hly
    nlinarith
  exact corner_le ((i : ℤ) + 1) ((j : ℤ) + 1) B _ _ (by exact_mod_cast hB)
    (by positivity) (by positivity) hx hy
    (by exact_mod_cast h1) (by exact_mod_cast h2) (by exact_mod_cast h64)

/-- Every point of a block whose cell satisfies the empty-cell condition
evaluates the Circle Predicate to false, for radius 8*B - 1. -/
lemma point_out_empty (i j B lx ly : Nat)
    (h65 : 65 ≤ i * i + j * j)
    (hlx : lx < B) (hly : ly < B) :
    inCircle (i * B + lx) (j * B + ly) (8 * B - 1) = false := by
  have hB : 1 ≤ B := by omega
  have h8B : 1 ≤ 8 * B := by omega
  simp only [inCircle, decide_eq_false_iff_not, not_le]
  zify [h8B]
  refine corner_gt (i : ℤ) (j : ℤ) B _ _ (by exact_mod_cast hB)
    (by positivity) (by positivity) (by exact_mod_cast h65) ?_ ?_
  · have : (0 : ℤ) ≤ lx := by positivity
    linarith
  · have : (0 : ℤ) ≤ ly := by positivity
    linarith

/-- A block whose cell satisfies the full-cell condition contributes
exactly B^2 points. -/
lemma blockCount_full (i j B : Nat)
    (h64 : (i + 1) * (i + 1) + (j + 1) * (j + 1) ≤ 64) :
    blockCount i j B (8 * B - 1) = B * B := by
  unfold blockCount squareTotal
  rw [Finset.sum_congr rfl fun ly hly => Finset.sum_congr rfl fun lx hlx => by
    rw [point_in_full i j B lx ly h64 (Finset.mem_range.mp hlx)
      (Finset.mem_range.mp hly)]]
  simp [mul_comm]

/-- A block whose cell satisfies the empty-cell condition contributes
no point at all. -/
lemma blockCount_empty (i j B : Nat) (h65 : 65 ≤ i * i + j * j) :
    blockCount i j B (8 * B - 1) = 0 := by
  unfold blockCount squareTotal
  rw [Finset.sum_congr rfl fun ly hly => Finset.sum_congr rfl fun lx hlx => by
    rw [point_out_empty i j B lx ly h65 (Finset.mem_range.mp hlx)
      (Finset.mem_range.mp hly)]]
  simp

/-- The Circle Predicate is symmetric in its two coordinates. -/
lemma inCircle_comm (x y R : Nat) : inCircle x y R = inCircle y x R := by
  unfold inCircle
  rw [Nat.add_comm]

/-- Diagonal symmetry: block (i, j) and block (j, i) hold the same number
of lattice points. -/
lemma blockCount_symm (i j B R : Nat) :
    blockCount i j B R = blockCount j i B R := by
  unfold blockCount squareTotal
  rw [Finset.sum_comm]
  exact Finset.sum_congr rfl fun lx _ => Finset.sum_congr rfl fun ly _ => by
    rw [inCircle_comm]

/-- Splitting a sum over [0, m*B) into m consecutive chunks of length B. -/
lemma sum_range_mul (m B : Nat) (f : Nat → Nat) :
    ∑ x ∈ Finset.range (m * B), f x =
      ∑ a ∈ Finset.range m, ∑ l ∈ Finset.range B, f (a * B + l) := by
  induction m with
  | zero => simp
  | succ n ih =>
    rw [Nat.succ_mul, Finset.sum_range_add, ih, Finset.sum_range_succ]

/-- The brute-force count over the full 8B x 8B grid decomposes into the
64 per-block counts. -/
lemma bruteCount_blocks (B : Nat) :
    bruteCount (8 * B) =
      ∑ j ∈ Finset.range 8, ∑ i ∈ Finset.range 8, blockCount i j B (8 * B - 1) := by
  unfold bruteCount
  rw [sum_range_mul 8 B]
  refine Finset.sum_congr rfl fun j _ => ?_
  calc
    ∑ l ∈ Finset.range B, ∑ x ∈ Finset.range (8 * B),
        (if inCircle x (j * B + l) (8 * B - 1) then 1 else 0)
      = ∑ l ∈ Finset.range B, ∑ i ∈ Finset.range 8, ∑ lx ∈ Finset.range B,
          (if inCircle (i * B + lx) (j * B + l) (8 * B - 1) then 1 else 0) :=
        Finset.sum_congr rfl fun l _ => sum_range_mul 8 B _
    _ = ∑ i ∈ Finset.range 8, ∑ l ∈ Finset.range B, ∑ lx ∈ Finset.range B,
          (if inCircle (i * B + lx) (j * B + l) (8 * B - 1) then 1 else 0) :=
        Finset.sum_comm
    _ = ∑ i ∈ Finset.range 8, blockCount i j B (8 * B - 1) := rfl

/-- The 64-cell sum of per-block counts equals the literal aggregation
of main.rs once the 41 full blocks, the 8 empty blocks and the 7
mirrored boundary blocks are rewritten - provided the dispatch covers
each block entirely (hypothesis hB). -/
lemma latticeTotal_eq_blocks (B : Nat) (hB : 16 * (8 * B / (8 * 16)) = B) :
    latticeTotal (8 * B) =
      ∑ j ∈ Finset.range 8, ∑ i ∈ Finset.range 8, blockCount i j B (8 * B - 1) := by
  have hdiv : 8 * B / 8 = B := Nat.mul_div_cancel_left B (by norm_num)
  simp only [Finset.sum_range_succ, Finset.sum_range_zero]
  rw [blockCount_symm 0 7 B, blockCount_symm 1 7 B, blockCount_symm 2 7 B,
    blockCount_symm 3 7 B, blockCount_symm 3 6 B, blockCount_symm 4 6 B,
    blockCount_symm 5 6 B]
  rw [blockCount_full 0 0 B (by norm_num), blockCount_full 1 0 B (by norm_num),
    blockCount_full 2 0 B (by norm_num), blockCount_full 3 0 B (by norm_num),
    blockCount_full 4 0 B (by norm_num), blockCount_full 5 0 B (by norm_num),
    blockCount_full 6 0 B (by norm_num),
    blockCount_full 0 1 B (by norm_num), blockCount_full 1 1 B (by norm_num),
    blockCount_full 2 1 B (by norm_num), blockCount_full 3 1 B (by norm_num),
    blockCount_full 4 1 B (by norm_num), blockCount_full 5 1 B (by norm_num),
    blockCount_full 6 1 B (by norm_num),
    blockCount_full 0 2 B (by norm_num), blockCount_full 1 2 B (by norm_num),
    blockCount_full 2 2 B (by norm_num), blockCount_full 3 2 B (by norm_num),
    blockCount_full 4 2 B (by norm_num), blockCount_full 5 2 B (by norm_num),
    blockCount_full 6 2 B (by norm_num),
    blockCount_full 0 3 B (by norm_num), blockCount_full 1 3 B (by norm_num),
    blockCount_full 2 3 B (by norm_num), blockCount_full 3 3 B (by norm_num),
    blockCount_full 4 3 B (by norm_num), blockCount_full 5 3 B (by norm_num),
    blockCount_full 0 4 B (by norm_num), blockCount_full 1 4 B (by norm_num),
    blockCount_full 2 4 B (by norm_num), blockCount_full 3 4 B (by norm_num),
    blockCount_full 4 4 B (by norm_num), blockCount_full 5 4 B (by norm_num),
    blockCount_full 0 5 B (by norm_num), blockCount_full 1 5 B (by norm_num),
    blockCount_full 2 5 B (by norm_num), blockCount_full 3 5 B (by norm_num),
    blockCount_full 4 5 B (by norm_num),
    blockCount_full 0 6 B (by norm_num), blockCount_full 1 6 B (by norm_num),
    blockCount_full 2 6 B (by norm_num)]
  rw [blockCount_empty 7 4 B (by norm_num), blockCount_empty 7 5 B (by norm_num),
    blockCount_empty 6 6 B (by norm_num), blockCount_empty 7 6 B (by norm_num),
    blockCount_empty 4 7 B (by norm_num), blockCount_empty 5 7 B (by norm_num),
    blockCount_empty 6 7 B (by norm_num), blockCount_empty 7 7 B (by norm_num)]
  simp only [latticeTotal, hdiv, hB, blockCount]
  ring

/-- Closed form of the main.rs aggregation: 41 full blocks, the seven
doubly-counted boundary blocks, and the diagonal block (5,5) once, each
boundary total taken over its dispatch-covered region. -/
lemma latticeTotal_closed (size : Nat) :
    latticeTotal size =
      41 * ((size / 8) * (size / 8)) +
      2 * (squareTotal (7 * (size / 8)) (0 * (size / 8)) (16 * (size / (8 * 16))) (size - 1) +
           squareTotal (7 * (size / 8)) (1 * (size / 8)) (16 * (size / (8 * 16))) (size - 1) +
           squareTotal (7 * (size / 8)) (2 * (size / 8)) (16 * (size / (8 * 16))) (size - 1) +
           squareTotal (7 * (size / 8)) (3 * (size / 8)) (16 * (size / (8 * 16))) (size - 1) +
           squareTotal (6 * (size / 8)) (3 * (size / 8)) (16 * (size / (8 * 16))) (size - 1) +
           squareTotal (6 * (size / 8)) (4 * (size / 8)) (16 * (size / (8 * 16))) (size - 1) +
           squareTotal (6 * (size / 8)) (5 * (size / 8)) (16 * (size / (8 * 16))) (size - 1)) +
      squareTotal (5 * (size / 8)) (5 * (size / 8)) (16 * (size / (8 * 16))) (size - 1) := by
  simp only [latticeTotal]
  ring

/-- When 128 divides the grid size the dispatch covers each block
entirely: the covered extent 16 * (8 * B / (8 * 16)) is all of B for
B = 16 * K. -/
lemma coverage_full (K : Nat) : 16 * (8 * (16 * K) / (8 * 16)) = 16 * K := by
  have e : (8 : Nat) * (16 * K) = (8 * 16) * K := by ring
  rw [e, Nat.mul_div_cancel_left K (by norm_num : 0 < 8 * 16)]

/-- Counting a prefix condition over a range. -/
lemma count_le_shift (B ox s : Nat) :
    (∑ lx ∈ Finset.range B, if ox + lx ≤ s then (1 : Nat) else 0) =
      min B (s + 1 - ox) := by
  induction B with
  | zero => simp
  | succ n ih =>
    rw [Finset.sum_range_succ, ih]
    by_cases h : ox + n ≤ s
    · rw [if_pos h]
      omega
    · rw [if_neg h]
      omega

/-- With fuel f, `isqrtFuel f n` is the integer square root of every
n < 4^f. -/
lemma isqrtFuel_spec : ∀ f n, n < 4 ^ f →
    isqrtFuel f n * isqrtFuel f n ≤ n ∧ n < (isqrtFuel f n + 1) * (isqrtFuel f n + 1) := by
  intro f
  induction f with
  | zero =>
    intro n hn
    interval_cases n
    simp [isqrtFuel]
  | succ g ih =>
    intro n hn
    have hm : n / 4 < 4 ^ g := by
      have : (4 : Nat) ^ (g + 1) = 4 * 4 ^ g := by ring
      omega
    obtain ⟨h1, h2⟩ := ih (n / 4) hm
    simp only [isqrtFuel]
    set r := isqrtFuel g (n / 4) with hr
    by_cases h : (2 * r + 1) * (2 * r + 1) ≤ n
    · rw [if_pos h]
      have e : (2 * r + 1 + 1) * (2 * r + 1 + 1) = 4 * ((r + 1) * (r + 1)) := by
        ring
      omega
    · rw [if_neg h]
      have e : 2 * r * (2 * r) = 4 * (r * r) := by ring
      omega

/-- For n < 4^f, being at most the fueled square root is the same as
squaring to at most n. -/
lemma le_isqrtFuel_iff (f n x : Nat) (hn : n < 4 ^ f) :
    x ≤ isqrtFuel f n ↔ x * x ≤ n := by
  obtain ⟨h1, h2⟩ := isqrtFuel_spec f n hn
  constructor
  · intro h
    exact le_trans (Nat.mul_le_mul h h) h1
  · intro h
    by_contra hc
    push_neg at hc
    have hc2 : isqrtFuel f n + 1 ≤ x := hc
    have hmul := Nat.mul_le_mul hc2 hc2
    omega

/-- The kernel total agrees with its fast row-count form, for any fuel
covering the squared radius. -/
lemma squareTotal_eq_fast (f ox oy B R : Nat) (hf : R * R < 4 ^ f) :
    squareTotal ox oy B R = fastSquareTotal f ox oy B R := by
  unfold squareTotal fastSquareTotal
  refine Finset.sum_congr rfl fun ly _ => ?_
  by_cases hy : (oy + ly) * (oy + ly) ≤ R * R
  · rw [if_pos hy, ← count_le_shift B ox (isqrtFuel f (R * R - (oy + ly) * (oy + ly)))]
    refine Finset.sum_congr rfl fun lx _ => ?_
    have hiff : inCircle (ox + lx) (oy + ly) R = true ↔
        ox + lx ≤ isqrtFuel f (R * R - (oy + ly) * (oy + ly)) := by
      unfold inCircle
      rw [decide_eq_true_eq, le_isqrtFuel_iff f _ _ (by omega)]
      omega
    by_cases h : ox + lx ≤ isqrtFuel f (R * R - (oy + ly) * (oy + ly))
    · rw [if_pos (hiff.mpr h), if_pos h]
    · rw [if_neg fun hh => h (hiff.mp hh), if_neg h]
  · rw [if_neg hy]
    refine Finset.sum_eq_zero fun lx _ => ?_
    have hout : ¬ (inCircle (ox + lx) (oy + ly) R = true) := by
      unfold inCircle
      rw [decide_eq_true_eq]
      omega
    rw [if_neg hout]

/-! ### The classification table -/

/-- Every in-range row of the table has 8 cells. -/
lemma row_length : ∀ j : Fin 8, (weightTable.getD j.val []).length = 8 := by
  decide

/-- Out-of-range block coordinates classify as empty (the `getD`
defaults). -/
lemma classify_out (i j : Nat) (h : 8 ≤ i ∨ 8 ≤ j) :
    classify i j = Cell.empty := by
  unfold classify
  rcases h with h | h
  · have hrow : (weightTable.getD j []).length ≤ 8 := by
      by_cases hj : j < 8
      · exact le_of_eq (row_length ⟨j, hj⟩)
      · have hlen : weightTable.length = 8 := rfl
        rw [List.getD_eq_default weightTable ([] : List Cell) (by omega)]
        simp
    exact List.getD_eq_default _ _ (hrow.trans h)
  · have hlen : weightTable.length = 8 := rfl
    rw [List.getD_eq_default weightTable ([] : List Cell) (by omega)]
    simp

/-- Checked by enumeration: every cell the table marks full satisfies the
full-cell corner condition. -/
lemma full_cond : ∀ i : Fin 8, ∀ j : Fin 8, classify i.val j.val = Cell.full →
    (i.val + 1) * (i.val + 1) + (j.val + 1) * (j.val + 1) ≤ 64 := by
  decide

/-- Checked by enumeration: every cell the table marks empty satisfies the
empty-cell corner condition. -/
lemma empty_cond : ∀ i : Fin 8, ∀ j : Fin 8, classify i.val j.val = Cell.empty →
    65 ≤ i.val * i.val + j.val * j.val := by
  decide

/-! ### Claim theorems -/

/-- C1 counterexample: at N = 8 (divisible by 8 but not by 128) the
program dispatches zero workgroups per kernel, so its Lattice Total is
41 while the brute-force count is 45. -/
theorem lattice_total_n8_counterexample :
    latticeTotal 8 ≠ bruteCount 8 := by
  decide

/-- C1 amended: for every grid size N divisible by 128 - so that the
size/(8*16)-workgroup dispatch covers all B^2 points of each block - the
Lattice Total the aggregation of main.rs computes via the fixed 8x8
weighted table equals the brute-force count of integer lattice points
(x, y) with 0 <= x, y < N satisfying x^2 + y^2 <= (N-1)^2. -/
theorem lattice_total_eq_bruteforce (N : Nat) (h128 : 128 ∣ N) :
    latticeTotal N = bruteCount N := by
  obtain ⟨K, rfl⟩ := h128
  have e : (128 : Nat) * K = 8 * (16 * K) := by ring
  rw [e, latticeTotal_eq_blocks (16 * K) (coverage_full K), bruteCount_blocks]

/-- Witness for C1 at N = 128. -/
theorem lattice_total_eq_bruteforce_witness :
    latticeTotal 128 = bruteCount 128 :=
  lattice_total_eq_bruteforce 128 ⟨1, rfl⟩

/-- C2 counterexample: at N = 8 the program's boundary cells contribute
0 (zero workgroups dispatched, buffers zero-initialized), not the
per-point counts of the representative blocks: the fold of the verbatim
table gives 45, the program 41. -/
theorem table_fold_n8_counterexample :
    latticeTotal 8 ≠ specTotal 8 := by
  decide

/-- C2 amended: for every N divisible by 128 - full dispatch coverage of
each block - the Lattice Total is the fold over the verbatim 8x8
classification table: full cells contribute B^2, empty cells 0, and each
boundary cell of index i the per-point count of the representative block
at the listed coordinates; moreover the table has exactly 41 full
cells. -/
theorem lattice_total_eq_table_fold (N : Nat) (h128 : 128 ∣ N) :
    latticeTotal N = specTotal N ∧ fullCellCount = 41 := by
  obtain ⟨K, rfl⟩ := h128
  constructor
  · have hs : 128 * K / 8 = 16 * K := by
      have e : (128 : Nat) * K = 8 * (16 * K) := by ring
      rw [e, Nat.mul_div_cancel_left _ (by norm_num : 0 < 8)]
    have hc : 16 * (128 * K / (8 * 16)) = 16 * K := by
      have e : (128 : Nat) * K = (8 * 16) * K := by ring
      rw [e, Nat.mul_div_cancel_left K (by norm_num : 0 < 8 * 16)]
    have r0 : specRep 0 = (7, 0) := rfl
    have r1 : specRep 1 = (7, 1) := rfl
    have r2 : specRep 2 = (7, 2) := rfl
    have r3 : specRep 3 = (7, 3) := rfl
    have r4 : specRep 4 = (6, 3) := rfl
    have r5 : specRep 5 = (6, 4) := rfl
    have r6 : specRep 6 = (6, 5) := rfl
    have r7 : specRep 7 = (5, 5) := rfl
    simp only [specTotal, weightTable, List.map_cons, List.map_nil,
      List.sum_cons, List.sum_nil, cellContribution, r0, r1, r2, r3, r4, r5,
      r6, r7, blockCount, latticeTotal, hs, hc]
    ring
  · decide

/-- Witness for C2 at N = 128. -/
theorem lattice_total_eq_table_fold_witness :
    latticeTotal 128 = specTotal 128 ∧ fullCellCount = 41 :=
  lattice_total_eq_table_fold 128 ⟨1, rfl⟩

/-- C4: for every N divisible by 8, every point of a block whose table
cell is marked full satisfies the Circle Predicate, and every point of a
block whose table cell is marked empty falsifies it. -/
theorem table_full_empty_sound (N : Nat) (h8 : 8 ∣ N) (i j lx ly : Nat)
    (hlx : lx < N / 8) (hly : ly < N / 8) :
    (classify i j = Cell.full →
      inCircle (i * (N / 8) + lx) (j * (N / 8) + ly) (N - 1) = true) ∧
    (i < 8 → j < 8 → classify i j = Cell.empty →
      inCircle (i * (N / 8) + lx) (j * (N / 8) + ly) (N - 1) = false) := by
  obtain ⟨B, rfl⟩ := h8
  have hdiv : 8 * B / 8 = B := Nat.mul_div_cancel_left B (by norm_num)
  rw [hdiv] at hlx hly
  rw [hdiv]
  constructor
  · intro hfull
    have hi : i < 8 := by
      by_contra hc
      rw [classify_out i j (Or.inl (by omega))] at hfull
      exact Cell.noConfusion hfull
    have hj : j < 8 := by
      by_contra hc
      rw [classify_out i j (Or.inr (by omega))] at hfull
      exact Cell.noConfusion hfull
    exact point_in_full i j B lx ly (full_cond ⟨i, hi⟩ ⟨j, hj⟩ hfull) hlx hly
  · intro hi hj hempty
    exact point_out_empty i j B lx ly (empty_cond ⟨i, hi⟩ ⟨j, hj⟩ hempty) hlx hly

/-- Witness for C4 at N = 8, block (0,0), point (0,0). -/
theorem table_full_empty_sound_witness :
    (classify 0 0 = Cell.full →
      inCircle (0 * (8 / 8) + 0) (0 * (8 / 8) + 0) (8 - 1) = true) ∧
    (0 < 8 → 0 < 8 → classify 0 0 = Cell.empty →
      inCircle (0 * (8 / 8) + 0) (0 * (8 / 8) + 0) (8 - 1) = false) :=
  table_full_empty_sound 8 ⟨1, rfl⟩ 0 0 0 0 (by decide) (by decide)

/-- C5: the run performs exactly 8 boundary-counting kernel dispatches,
independent of the grid size. -/
theorem eight_kernel_dispatches (size : Nat) :
    (kernelDispatches size).length = 8 :=
  rfl

/-- C3: on a successful run for grid size N, standard output is exactly
two lines - the operation-complete marker, then the result line with
numerator 4 * LatticeTotal and denominator (N-1)^2, as integers. -/
theorem run_output_format (N : Nat) (hN : 1 ≤ N) :
    runOutput N =
      ["GPU Done!",
       "pi = " ++ toString (4 * latticeTotal N) ++ "/" ++
         toString ((N - 1) * (N - 1))] ∧
    (runOutput N).length = 2 := by
  refine ⟨?_, rfl⟩
  unfold runOutput
  rw [Nat.mul_comm (latticeTotal N) 4]

/-- Witness for C3 at N = 8. -/
theorem run_output_format_witness :
    runOutput 8 =
      ["GPU Done!",
       "pi = " ++ toString (4 * latticeTotal 8) ++ "/" ++
         toString ((8 - 1) * (8 - 1))] ∧
    (runOutput 8).length = 2 :=
  run_output_format 8 (by decide)

/-- C7, evaluated at the failing input N = 8: the host code dispatches
`8 / (8 * 16) = 0` workgroups per axis, so every boundary kernel
evaluates zero lattice points (not the one point per kernel the claim
and spec 4.2 require), the program's Lattice Total is 41, and the
brute-force count - what the spec's manual evaluation yields - is 45. -/
theorem n8_zero_coverage :
    workgroupsPerAxis 8 = 0 ∧
    (∀ p ∈ kernelDispatches 8,
      squareTotal p.1 p.2 (16 * workgroupsPerAxis 8) (8 - 1) = 0) ∧
    latticeTotal 8 = 41 ∧ bruteCount 8 = 45 := by
  decide

/-- C8: the argument "abc" fails parsing with the fatal Argument Error
before any backend work, and a missing argument defaults to N = 1024. -/
theorem bad_arg_aborts :
    runProgram (some ['a', 'b', 'c']) = Except.error "Bad Arg Format" ∧
    parseArg (some ['a', 'b', 'c']) = Except.error "Bad Arg Format" ∧
    parseArg none = Except.ok 1024 :=
  ⟨rfl, rfl, rfl⟩

/-- C9: the estimation is deterministic - evaluating the embedded run
twice on the same input yields the same Lattice Total, the same reported
fraction and the same observable behaviour. -/
theorem estimation_deterministic (N : Nat) (arg : Option (List Char)) :
    (latticeTotal N, piFraction N) = (latticeTotal N, piFraction N) ∧
    runProgram arg = runProgram arg :=
  ⟨rfl, rfl⟩

/-- C10: the argument "0" parses (usize is unsigned) with no Argument
Error, so the run is not aborted at the argument stage and continues
with N = 0, while every string starting with a minus sign fails parsing
fatally.  (What the run does later at N = 0 - the usize underflow of
`size - 1` at line 258 - is beyond this parse-level property.) -/
theorem zero_accepted_negative_rejected :
    parseArg (some ['0']) = Except.ok 0 ∧
    (∀ t : List Char, parseUsize ('-' :: t) = none) :=
  ⟨rfl, fun _ => rfl⟩

/-- C6 counterexample: for N = 1024 the printed denominator is
(1024 - 1)^2 = 1046529, not 1047529 as claimed. -/
theorem n1024_denominator_not_1047529 : (piFraction 1024).2 ≠ 1047529 := by
  decide

set_option maxRecDepth 10000 in
set_option maxHeartbeats 1000000 in
/-- C6 amended: for N = 1024 the printed denominator is 1046529 and the
reported ratio 4 * LatticeTotal / 1046529 approximates pi to within 0.01
absolute error. -/
theorem n1024_denominator_and_ratio :
    (piFraction 1024).2 = 1046529 ∧
    |(4 * (latticeTotal 1024 : ℝ)) / 1046529 - Real.pi| < 1 / 100 := by
  have hf : ((1024 : Nat) - 1) * (1024 - 1) < 4 ^ 16 := by norm_num
  have h0 : squareTotal (7 * (1024 / 8)) (0 * (1024 / 8)) (16 * (1024 / (8 * 16))) (1024 - 1) = 15974 := by
    rw [squareTotal_eq_fast 16 _ _ _ _ hf]
    decide
  have h1 : squareTotal (7 * (1024 / 8)) (1 * (1024 / 8)) (16 * (1024 / (8 * 16))) (1024 - 1) = 13914 := by
    rw [squareTotal_eq_fast 16 _ _ _ _ hf]
    decide
  have h2 : squareTotal (7 * (1024 / 8)) (2 * (1024 / 8)) (16 * (1024 / (8 * 16))) (1024 - 1) = 9668 := by
    rw [squareTotal_eq_fast 16 _ _ _ _ hf]
    decide
  have h3 : squareTotal (7 * (1024 / 8)) (3 * (1024 / 8)) (16 * (1024 / (8 * 16))) (1024 - 1) = 3090 := by
    rw [squareTotal_eq_fast 16 _ _ _ _ hf]
    decide
  have h4 : squareTotal (6 * (1024 / 8)) (3 * (1024 / 8)) (16 * (1024 / (8 * 16))) (1024 - 1) = 16304 := by
    rw [squareTotal_eq_fast 16 _ _ _ _ hf]
    decide
  have h5 : squareTotal (6 * (1024 / 8)) (4 * (1024 / 8)) (16 * (1024 / (8 * 16))) (1024 - 1) = 9867 := by
    rw [squareTotal_eq_fast 16 _ _ _ _ hf]
    decide
  have h6 : squareTotal (6 * (1024 / 8)) (5 * (1024 / 8)) (16 * (1024 / (8 * 16))) (1024 - 1) = 580 := by
    rw [squareTotal_eq_fast 16 _ _ _ _ hf]
    decide
  have h7 : squareTotal (5 * (1024 / 8)) (5 * (1024 / 8)) (16 * (1024 / (8 * 16))) (1024 - 1) = 12404 := by
    rw [squareTotal_eq_fast 16 _ _ _ _ hf]
    decide
  have hT : latticeTotal 1024 = 822942 := by
    rw [latticeTotal_closed, h0, h1, h2, h3, h4, h5, h6, h7]
  refine ⟨by decide, ?_⟩
  rw [hT]
  have h1 : (3.14 : ℝ) < Real.pi := Real.pi_gt_d2
  have h2 : Real.pi < (3.15 : ℝ) := Real.pi_lt_d2
  have hr1 : (4 * ((822942 : Nat) : ℝ)) / 1046529 < 3.15 := by norm_num
  have hr2 : (3.14 : ℝ) < (4 * ((822942 : Nat) : ℝ)) / 1046529 := by norm_num
  rw [abs_sub_lt_iff]
  constructor
  · linarith
  · linarith

end Picalc
